import Mathlib

/-!
Verification development for the `excel_compare` repository
(source file `Excel_compare_v2.py`).

The development shallowly embeds the three pieces of core logic of the
script:

* the row-set reconciliation performed inline in `main`
  (lines 148-159: whitespace normalization, `pandas.merge(..., indicator=True,
  how='outer')`, indicator relabelling, and filtering out `both` rows);
* the keyed merge `extract_and_merge_columns` (lines 8-37: synthetic
  `UniqueKey` construction, projection, inner merge, `drop_duplicates`);
* the cell highlighting pass `highlight_col` (lines 39-85).

Scalar cells are modelled by the inductive type `Value` (string, number,
or null), tables by a list of column names together with a list of
positional rows, exactly as a `pandas.DataFrame` presents them.
-/

set_option autoImplicit false

namespace ExcelCompare

/-- Scalar cell value of a table: a string, a number, or a null/NaN cell
(the three kinds of scalars the script's dataframes hold). -/
inductive Value where
  | VStr (s : String)
  | VNum (n : Int)
  | VNull
deriving DecidableEq, Repr

/-- Whitespace characters removed by Python `str.strip()`. -/
def pyWhitespace (c : Char) : Bool :=
  (c == ' ') || (c == '\t') || (c == '\n') || (c == '\r') || (c == '\x0b') || (c == '\x0c')

/-- Python `str.strip()`: remove leading and trailing whitespace. -/
def pyStrip (s : String) : String :=
  String.mk (((s.data.dropWhile pyWhitespace).reverse.dropWhile pyWhitespace).reverse)

/-- Normalization applied to every scalar cell before comparison
(line 149-150: `str(x).strip() if isinstance(x, str) else x`): textual
values are stripped of surrounding whitespace, numeric and null values
pass through unchanged. -/
def normalizeVal : Value → Value
  | .VStr s => .VStr (pyStrip s)
  | v => v

/-- Normalize every cell of a row. -/
def normalizeRow (r : List Value) : List Value :=
  r.map normalizeVal

/-- Python `str(x)` as used by `.astype(str)` on a dataframe cell:
a string stays itself, a number prints, a NaN cell prints as `nan`. -/
def strOfValue : Value → String
  | .VStr s => s
  | .VNum n => toString n
  | .VNull => "nan"

/-- A table: ordered column names and positional rows, as a
`pandas.DataFrame` presents them. -/
structure Table where
  cols : List String
  rows : List (List Value)
deriving DecidableEq, Repr

/-- Well-formedness of a table: every row has one cell per column. -/
def Table.WF (t : Table) : Prop :=
  ∀ r ∈ t.rows, r.length = t.cols.length

/-- Value of column `c` in row `r` of a table with columns `cols`
(positional lookup by the column's index, as column selection does on a
dataframe row). -/
def colVal (cols : List String) (r : List Value) (c : String) : Value :=
  r.getD (cols.indexOf c) .VNull

/-- Rows of a table after cell normalization (lines 149-150). -/
def normRows (t : Table) : List (List Value) :=
  t.rows.map normalizeRow

/-- The outer merge of line 153, `source_file.merge(target_file,
indicator=True, how='outer')`, restricted to the identical-columns case
the comparison feature assumes (`both files must be same format & same
no. of columns`): the join is on every column, so a row matches exactly
when its whole value tuple matches.  Each left row with matches yields
one `both` row per matching right row (join multiplicity); left rows
without a match are tagged `left_only`, unmatched right rows are
appended tagged `right_only` (pandas ordering for `sort=False`). -/
def outerMergeInd (A B : List (List Value)) : List (List Value × String) :=
  (A.flatMap (fun a =>
    if a ∈ B then (B.filter (fun b => decide (b = a))).map (fun _ => (a, "both"))
    else [(a, "left_only")]))
  ++ (B.filter (fun b => !decide (b ∈ A))).map (fun b => (b, "right_only"))

/-- Line 155: relabel the merge indicator, `left_only` becoming
`Source Only` and `right_only` becoming `Target Only`; `both` stays. -/
def replaceTags (l : List (List Value × String)) : List (List Value × String) :=
  l.map (fun x =>
    (x.1, if x.2 = "left_only" then "Source Only"
          else if x.2 = "right_only" then "Target Only" else x.2))

/-- Lines 153-159: normalized outer merge with indicator, relabelled, and
with `both` rows filtered out.  Each element is a diff row paired with
its `Merge_Output` tag. -/
def reconcileDiffRows (A B : Table) : List (List Value × String) :=
  (replaceTags (outerMergeInd (normRows A) (normRows B))).filter
    (fun x => !decide (x.2 = "both"))

/-- The `Differences` table the script writes (line 169): the diff rows
with the tag appended as a trailing `Merge_Output` column. -/
def diffTable (A B : Table) : Table :=
  { cols := A.cols ++ ["Merge_Output"],
    rows := (reconcileDiffRows A B).map (fun x => x.1 ++ [.VStr x.2]) }

/-- The count reported to the caller on line 175, `len(diff)`. -/
def reconcileCount (A B : Table) : Nat :=
  (reconcileDiffRows A B).length

/-- Columns shared by the two tables, in left-table order: the join keys
`pandas.merge` picks by default when no `on` argument is given. -/
def commonCols (A B : Table) : List String :=
  A.cols.filter (fun c => decide (c ∈ B.cols))

/-- The outer merge of line 153 in the general case where the two column
sets may differ.  `pandas` joins on the intersection of the column names:
left rows carry null for right-only columns when unmatched, unmatched
right rows carry null for left-only columns, and matched pairs are tagged
`both`.  When no column is shared `pandas.merge` itself raises
`MergeError` (modelled as `none`); the script performs no schema check of
its own, so with at least one shared column an output table is always
produced. -/
def reconcileGeneral (A B : Table) : Option Table :=
  let common := commonCols A B
  if common.isEmpty then none
  else
    let A2 := normRows A
    let B2 := normRows B
    let bOnly := B.cols.filter (fun c => !decide (c ∈ A.cols))
    let keyA := fun (r : List Value) => common.map (fun c => colVal A.cols r c)
    let keyB := fun (r : List Value) => common.map (fun c => colVal B.cols r c)
    let tagged :=
      (A2.flatMap (fun a =>
        let ms := B2.filter (fun b => decide (keyB b = keyA a))
        if ms.isEmpty then [(a ++ bOnly.map (fun _ => Value.VNull), "Source Only")]
        else ms.map (fun b => (a ++ bOnly.map (fun c => colVal B.cols b c), "both"))))
      ++ (B2.filter (fun b => !decide (keyB b ∈ A2.map keyA))).map
          (fun b => (A.cols.map (fun c =>
              if decide (c ∈ B.cols) then colVal B.cols b c else Value.VNull)
            ++ bOnly.map (fun c => colVal B.cols b c), "Target Only"))
    some { cols := A.cols ++ bOnly ++ ["Merge_Output"],
           rows := (tagged.filter (fun x => !decide (x.2 = "both"))).map
             (fun x => x.1 ++ [Value.VStr x.2]) }

/-- The synthetic join key of lines 14-16: the string forms of the key
columns of a row, concatenated with `_` between parts
(`astype(str).agg(join of underscore, axis=1)`). -/
def rowKey (cols ks : List String) (r : List Value) : String :=
  String.intercalate ("_") (ks.map (fun c => strOfValue (colVal cols r c)))

/-- The assignment `df[UniqueKey] = df[keys].astype(str).agg(...)` of
lines 14 and 16: when the table already has a `UniqueKey` column its
cells are overwritten in place, otherwise a new trailing column is
appended.  This mutates the caller's dataframe. -/
def setUniqueKey (t : Table) (ks : List String) : Table :=
  if "UniqueKey" ∈ t.cols then
    { cols := t.cols,
      rows := t.rows.map (fun r =>
        r.set (t.cols.indexOf ("UniqueKey")) (.VStr (rowKey t.cols ks r))) }
  else
    { cols := t.cols ++ ["UniqueKey"],
      rows := t.rows.map (fun r => r ++ [.VStr (rowKey t.cols ks r)]) }

/-- The projections of lines 19 and 21, keyed for the merge: each row of
the (already mutated) table becomes its `UniqueKey` cell paired with its
selected column values. -/
def projRows (t : Table) (sel : List String) : List (String × List Value) :=
  t.rows.map (fun r =>
    (strOfValue (colVal t.cols r ("UniqueKey")), sel.map (fun c => colVal t.cols r c)))

/-- The inner merge on `UniqueKey` of line 24: every left row is paired
with every right row sharing its key, in left-then-right order; keys
present on only one side produce no output row. -/
def innerMergeByKey (os ns : List (String × List Value)) :
    List (String × List Value × List Value) :=
  os.flatMap (fun o =>
    (ns.filter (fun n => decide (n.1 = o.1))).map (fun n => (o.1, o.2, n.2)))

/-- Helper for `drop_duplicates`: keep each element whose key has not
been seen yet. -/
def dedupAux {α : Type} (seen : List String) : List (String × α) → List (String × α)
  | [] => []
  | x :: rest =>
    if x.1 ∈ seen then dedupAux seen rest else x :: dedupAux (x.1 :: seen) rest

/-- Line 27, `drop_duplicates(subset=UniqueKey)`: keep the first
occurrence of every key, in order. -/
def dedupByKey {α : Type} (l : List (String × α)) : List (String × α) :=
  dedupAux [] l

/-- Error raised by `pandas` column selection with missing labels
(`KeyError: [...] not in index`): it carries the list of missing column
names and nothing else — in particular no indication of which dataframe
they were missing from. -/
inductive MergeError where
  | colsNotFound (missing : List String)
deriving DecidableEq, Repr

/-- Lines 8-27 of `extract_and_merge_columns`, with the mutation of the
two caller-supplied dataframes made explicit by returning them: build the
`UniqueKey` column in each table (mutating it), project key plus selected
columns, inner-merge on the key, and deduplicate by key.  A missing key
or selected column raises the `pandas` `KeyError` at the point the code
reaches it (old keys, then new keys, then old columns, then new columns),
leaving the tables mutated exactly as far as execution got. -/
def extract_and_merge_columns (old_file new_file : Table)
    (old_keys new_keys old_cols new_cols : List String) :
    Table × Table × Except MergeError (List (String × List Value × List Value)) :=
  let missOldKeys := old_keys.filter (fun c => !decide (c ∈ old_file.cols))
  if missOldKeys.isEmpty then
    let old2 := setUniqueKey old_file old_keys
    let missNewKeys := new_keys.filter (fun c => !decide (c ∈ new_file.cols))
    if missNewKeys.isEmpty then
      let new2 := setUniqueKey new_file new_keys
      let missOldCols := old_cols.filter (fun c => !decide (c ∈ old2.cols))
      if missOldCols.isEmpty then
        let missNewCols := new_cols.filter (fun c => !decide (c ∈ new2.cols))
        if missNewCols.isEmpty then
          (old2, new2, .ok (dedupByKey (innerMergeByKey
            (projRows old2 old_cols) (projRows new2 new_cols))))
        else (old2, new2, .error (.colsNotFound missNewCols))
      else (old2, new2, .error (.colsNotFound missOldCols))
    else (old2, new_file, .error (.colsNotFound missNewKeys))
  else (old_file, new_file, .error (.colsNotFound missOldKeys))

/-- Cell fill applied by `highlight_col`. -/
inductive Fill where
  | noFill
  | yellow
  | pink
  | red
deriving DecidableEq, Repr

/-- Row-level fill of lines 59-64: yellow for a `Source Only` row, pink
for a `Target Only` row, judged from the row's true last cell (the
`Merge_Output` column). -/
def baseFill (tag : Value) : Fill :=
  if tag = .VStr ("Source Only") then .yellow
  else if tag = .VStr ("Target Only") then .pink
  else .noFill

/-- Cell `j` is painted red by the loop of lines 75-82: either `j` is a
first-half index whose cell differs from its second-half partner, or `j`
is a second-half index whose cell differs from its first-half partner. -/
def redAt (row : List Value) (numCols j : Nat) : Bool :=
  (decide (j < numCols / 2)
    && !decide (row.getD j .VNull = row.getD (j + numCols / 2) .VNull))
  || (decide (numCols / 2 ≤ j) && decide (j < numCols / 2 + numCols / 2)
    && !decide (row.getD (j - numCols / 2) .VNull = row.getD j .VNull))

/-- Lines 39-85 of `highlight_col` on the data rows of the `Differences`
sheet (`width` cells per row, the last being `Merge_Output`).  The first
loop fills each row yellow or pink from its last cell.  The second loop
truncates each row to `num_cols = width - 1` cells, reads `row[-1]` —
now the cell at index `num_cols - 1`, the last DATA column rather than
the tag — and only when that value is `Source Only` or `Target Only`
compares cell `i` with cell `i + num_cols // 2` for `i` below
`num_cols // 2`, painting both red when they differ. -/
def highlight_col (width : Nat) (rows : List (List Value)) : List (List Fill) :=
  rows.map (fun row =>
    let base := baseFill (row.getD (width - 1) .VNull)
    let numCols := width - 1
    let mo := row.getD (numCols - 1) .VNull
    if mo = .VStr ("Source Only") ∨ mo = .VStr ("Target Only") then
      (List.range width).map (fun j => if redAt row numCols j then .red else base)
    else List.replicate width base)

/-- Characterization of the filtered, relabelled outer merge: the rows of
the diff are exactly the left rows with no match on the right, tagged
`Source Only`, followed by the right rows with no match on the left,
tagged `Target Only`; every `both` row of the join is dropped. -/
theorem reconcile_core (A' B' : List (List Value)) :
    (replaceTags (outerMergeInd A' B')).filter (fun x => !decide (x.2 = "both"))
    = (A'.filter (fun r => !decide (r ∈ B'))).map (fun r => (r, "Source Only"))
      ++ (B'.filter (fun r => !decide (r ∈ A'))).map (fun r => (r, "Target Only")) := by
  unfold outerMergeInd replaceTags
  rw [List.map_append, List.filter_append]
  congr 1
  · induction A' with
    | nil => simp
    | cons a t ih =>
      by_cases h : a ∈ B'
      · simp only [List.flatMap_cons, if_pos h, List.map_append, List.filter_append, ih,
          List.map_map, List.filter_map]
        simp [h, Function.comp]
      · simp only [List.flatMap_cons, if_neg h, List.map_append, List.filter_append, ih]
        simp [h, List.filter_cons]
  · rw [List.map_map, List.filter_map]
    simp [Function.comp]

/-- Closed form of `reconcileDiffRows`. -/
theorem reconcileDiffRows_eq (A B : Table) :
    reconcileDiffRows A B
    = ((normRows A).filter (fun r => !decide (r ∈ normRows B))).map
        (fun r => (r, "Source Only"))
      ++ ((normRows B).filter (fun r => !decide (r ∈ normRows A))).map
        (fun r => (r, "Target Only")) :=
  reconcile_core (normRows A) (normRows B)

/-- Filtering a list for elements not in itself gives the empty list. -/
theorem filter_not_mem_self (L : List (List Value)) :
    L.filter (fun r => !decide (r ∈ L)) = [] := by
  rw [List.filter_eq_nil_iff]
  intro a ha
  simp [ha]

/-- C1: for every pair of tables with identical columns, reconciliation
outputs a table containing exactly the rows whose normalized value-tuple
does not occur in both inputs (rows present in both are excluded), with
one additional trailing column `Merge_Output` whose value is
`Source Only` for rows occurring only in the source table and
`Target Only` for rows occurring only in the target table, and the count
reported to the caller equals the number of rows of this output table. -/
theorem reconcile_output_characterization (A B : Table) (h : A.cols = B.cols) :
    (diffTable A B).cols = A.cols ++ ["Merge_Output"]
    ∧ (diffTable A B).rows =
        ((normRows A).filter (fun r => !decide (r ∈ normRows B))).map
          (fun r => r ++ [.VStr ("Source Only")])
        ++ ((normRows B).filter (fun r => !decide (r ∈ normRows A))).map
          (fun r => r ++ [.VStr ("Target Only")])
    ∧ reconcileCount A B = (diffTable A B).rows.length := by
  refine ⟨rfl, ?_, ?_⟩
  · simp only [diffTable, reconcileDiffRows_eq, List.map_append, List.map_map]
    rfl
  · simp [diffTable, reconcileCount]

/-- Witness for C1 at the concrete tables `{x: [1, 3]}` and `{x: [1, 2]}`:
the shared row `[1]` is dropped, `[3]` is `Source Only`, `[2]` is
`Target Only`, and the reported count is the number of output rows. -/
theorem reconcile_output_characterization_witness :
    ({ cols := ["x"], rows := [[Value.VNum 1], [Value.VNum 3]] } : Table).cols
      = ({ cols := ["x"], rows := [[Value.VNum 1], [Value.VNum 2]] } : Table).cols
    ∧ ((diffTable { cols := ["x"], rows := [[Value.VNum 1], [Value.VNum 3]] }
          { cols := ["x"], rows := [[Value.VNum 1], [Value.VNum 2]] }).cols
        = ["x"] ++ ["Merge_Output"]
      ∧ (diffTable { cols := ["x"], rows := [[Value.VNum 1], [Value.VNum 3]] }
          { cols := ["x"], rows := [[Value.VNum 1], [Value.VNum 2]] }).rows =
          ((normRows { cols := ["x"], rows := [[Value.VNum 1], [Value.VNum 3]] }).filter
            (fun r => !decide (r ∈
              normRows { cols := ["x"], rows := [[Value.VNum 1], [Value.VNum 2]] }))).map
            (fun r => r ++ [.VStr ("Source Only")])
          ++ ((normRows { cols := ["x"], rows := [[Value.VNum 1], [Value.VNum 2]] }).filter
            (fun r => !decide (r ∈
              normRows { cols := ["x"], rows := [[Value.VNum 1], [Value.VNum 3]] }))).map
            (fun r => r ++ [.VStr ("Target Only")])
      ∧ reconcileCount { cols := ["x"], rows := [[Value.VNum 1], [Value.VNum 3]] }
          { cols := ["x"], rows := [[Value.VNum 1], [Value.VNum 2]] }
        = (diffTable { cols := ["x"], rows := [[Value.VNum 1], [Value.VNum 3]] }
            { cols := ["x"], rows := [[Value.VNum 1], [Value.VNum 2]] }).rows.length) :=
  ⟨rfl, reconcile_output_characterization _ _ rfl⟩

/-- C2: the normalization applied before comparison strips leading and
trailing whitespace from textual values and leaves numeric and null
values unchanged; consequently two tables whose normalized rows agree
(in particular, identical up to a cell holding `  foo  ` versus `foo`)
reconcile with an empty diff. -/
theorem normalization_spec :
    (∀ s, normalizeVal (.VStr s) = .VStr (pyStrip s))
    ∧ (∀ n : Int, normalizeVal (.VNum n) = .VNum n)
    ∧ normalizeVal .VNull = .VNull
    ∧ (∀ A B : Table, normRows A = normRows B → (diffTable A B).rows = [])
    ∧ (diffTable { cols := ["x"], rows := [[.VStr ("  foo  ")]] }
        { cols := ["x"], rows := [[.VStr ("foo")]] }).rows = [] := by
  refine ⟨fun s => rfl, fun n => rfl, rfl, ?_, by decide⟩
  intro A B hAB
  simp [diffTable, reconcileDiffRows_eq, hAB, filter_not_mem_self]

/-- Witness for C2 at the concrete tables `{x: [" a "]}` and `{x: ["a"]}`:
their normalized rows agree, so the diff is empty. -/
theorem normalization_spec_witness :
    normRows { cols := ["x"], rows := [[Value.VStr (" a ")]] }
      = normRows { cols := ["x"], rows := [[Value.VStr ("a")]] }
    ∧ (diffTable { cols := ["x"], rows := [[Value.VStr (" a ")]] }
        { cols := ["x"], rows := [[Value.VStr ("a")]] }).rows = [] :=
  ⟨by decide, normalization_spec.2.2.2.1 _ _ (by decide)⟩

/-- C3: reconciling a table with itself yields an empty diff table:
every row of the outer merge is tagged `both` and is therefore excluded
from the output. -/
theorem reconcile_self_empty (T : Table) :
    (∀ x ∈ outerMergeInd (normRows T) (normRows T), x.2 = "both")
    ∧ (diffTable T T).rows = []
    ∧ reconcileCount T T = 0 := by
  refine ⟨?_, ?_, ?_⟩
  · intro x hx
    unfold outerMergeInd at hx
    rcases List.mem_append.1 hx with h1 | h2
    · rcases List.mem_flatMap.1 h1 with ⟨a, ha, hxa⟩
      rw [if_pos ha] at hxa
      rcases List.mem_map.1 hxa with ⟨b, _, rfl⟩
      rfl
    · rcases List.mem_map.1 h2 with ⟨b, hb, rfl⟩
      have hb2 := List.mem_filter.1 hb
      simp at hb2
  · simp [diffTable, reconcileDiffRows_eq, filter_not_mem_self]
  · simp [reconcileCount, reconcileDiffRows_eq, filter_not_mem_self]

/-- C4: for disjoint tables (no normalized row of `A` equals any
normalized row of `B`), reconciliation outputs every row of `A` tagged
`Source Only` followed by every row of `B` tagged `Target Only`, and the
reported count is the sum of the two row counts. -/
theorem reconcile_disjoint (A B : Table) (h : A.cols = B.cols)
    (hdisj : ∀ r ∈ normRows A, r ∉ normRows B) :
    reconcileDiffRows A B
      = (normRows A).map (fun r => (r, "Source Only"))
        ++ (normRows B).map (fun r => (r, "Target Only"))
    ∧ reconcileCount A B = A.rows.length + B.rows.length := by
  have hA : (normRows A).filter (fun r => !decide (r ∈ normRows B)) = normRows A :=
    List.filter_eq_self.mpr (fun a ha => by simp [hdisj a ha])
  have hB : (normRows B).filter (fun r => !decide (r ∈ normRows A)) = normRows B :=
    List.filter_eq_self.mpr (fun b hb => by
      simp only [Bool.not_eq_true', decide_eq_false_iff_not]
      intro hbA
      exact hdisj b hbA hb)
  constructor
  · rw [reconcileDiffRows_eq, hA, hB]
  · rw [reconcileCount, reconcileDiffRows_eq, hA, hB]
    simp [normRows]

/-- Witness for C4 at the disjoint concrete tables `{x: [1]}` and
`{x: [2]}`: two output rows, one `Source Only` and one `Target Only`. -/
theorem reconcile_disjoint_witness :
    ({ cols := ["x"], rows := [[Value.VNum 1]] } : Table).cols
      = ({ cols := ["x"], rows := [[Value.VNum 2]] } : Table).cols
    ∧ (∀ r ∈ normRows { cols := ["x"], rows := [[Value.VNum 1]] },
        r ∉ normRows { cols := ["x"], rows := [[Value.VNum 2]] })
    ∧ (reconcileDiffRows { cols := ["x"], rows := [[Value.VNum 1]] }
          { cols := ["x"], rows := [[Value.VNum 2]] }
        = (normRows { cols := ["x"], rows := [[Value.VNum 1]] }).map
            (fun r => (r, "Source Only"))
          ++ (normRows { cols := ["x"], rows := [[Value.VNum 2]] }).map
            (fun r => (r, "Target Only"))
      ∧ reconcileCount { cols := ["x"], rows := [[Value.VNum 1]] }
          { cols := ["x"], rows := [[Value.VNum 2]] }
        = ({ cols := ["x"], rows := [[Value.VNum 1]] } : Table).rows.length
          + ({ cols := ["x"], rows := [[Value.VNum 2]] } : Table).rows.length) :=
  ⟨rfl, by decide, reconcile_disjoint _ _ rfl (by decide)⟩

/-- C5: reconciliation is symmetric on tagging: the rows tagged
`Source Only` by `reconcile(A, B)` are exactly the rows tagged
`Target Only` by `reconcile(B, A)`. -/
theorem reconcile_symmetric (A B : Table) (h : A.cols = B.cols) :
    ((reconcileDiffRows A B).filter (fun x => decide (x.2 = "Source Only"))).map Prod.fst
    = ((reconcileDiffRows B A).filter (fun x => decide (x.2 = "Target Only"))).map Prod.fst := by
  rw [reconcileDiffRows_eq, reconcileDiffRows_eq]
  simp [List.filter_append, List.filter_map, Function.comp, List.map_map]

/-- Witness for C5 at the concrete tables `{x: [1]}` and `{x: [2]}`. -/
theorem reconcile_symmetric_witness :
    ({ cols := ["x"], rows := [[Value.VNum 1]] } : Table).cols
      = ({ cols := ["x"], rows := [[Value.VNum 2]] } : Table).cols
    ∧ ((reconcileDiffRows { cols := ["x"], rows := [[Value.VNum 1]] }
          { cols := ["x"], rows := [[Value.VNum 2]] }).filter
          (fun x => decide (x.2 = "Source Only"))).map Prod.fst
      = ((reconcileDiffRows { cols := ["x"], rows := [[Value.VNum 2]] }
          { cols := ["x"], rows := [[Value.VNum 1]] }).filter
          (fun x => decide (x.2 = "Target Only"))).map Prod.fst :=
  ⟨rfl, reconcile_symmetric _ _ rfl⟩

theorem getD_set_self (r : List Value) (i : Nat) (v : Value) (h : i < r.length) :
    (r.set i v).getD i .VNull = v := by
  induction r generalizing i with
  | nil => simp at h
  | cons a t ih =>
    cases i with
    | zero => rfl
    | succ n => simpa using ih n (by simpa using h)

/-- Reading just past the original cells of an extended row yields the appended value. -/
theorem getD_append_length (r : List Value) (v : Value) :
    (r ++ [v]).getD r.length .VNull = v := by
  induction r with
  | nil => rfl
  | cons a t ih => simpa using ih

/-- Index of the freshly appended `UniqueKey` column. -/
theorem indexOf_append_self (cols : List String) (h : "UniqueKey" ∉ cols) :
    (cols ++ ["UniqueKey"]).indexOf ("UniqueKey") = cols.length := by
  induction cols with
  | nil => rfl
  | cons c t ih =>
    have hne : (c == "UniqueKey") = false := by
      simp only [List.mem_cons, not_or] at h
      exact beq_eq_false_iff_ne.mpr (Ne.symm h.1)
    have ht := ih (fun hm => h (List.mem_cons_of_mem _ hm))
    simp [List.indexOf_cons, hne, ht]

/-- Every element kept by deduplication comes from the input and has an unseen key. -/
theorem mem_dedupAux {α : Type} (seen : List String) (l : List (String × α)) (x : String × α)
    (hx : x ∈ dedupAux seen l) : x ∈ l ∧ x.1 ∉ seen := by
  induction l generalizing seen with
  | nil => simp [dedupAux] at hx
  | cons a t ih =>
    simp only [dedupAux] at hx
    by_cases h : a.1 ∈ seen
    · rw [if_pos h] at hx
      have h2 := ih seen hx
      exact ⟨List.mem_cons_of_mem _ h2.1, h2.2⟩
    · rw [if_neg h] at hx
      rcases List.mem_cons.1 hx with rfl | hx2
      · exact ⟨List.mem_cons_self _ _, h⟩
      · have h2 := ih (a.1 :: seen) hx2
        exact ⟨List.mem_cons_of_mem _ h2.1, fun hs => h2.2 (List.mem_cons_of_mem _ hs)⟩

/-- Every element kept by deduplication is the first element of the input with its key. -/
theorem find?_mem_dedupAux {α : Type} (seen : List String) (l : List (String × α))
    (x : String × α) (hx : x ∈ dedupAux seen l) :
    l.find? (fun y => decide (y.1 = x.1)) = some x := by
  induction l generalizing seen with
  | nil => simp [dedupAux] at hx
  | cons a t ih =>
    simp only [dedupAux] at hx
    by_cases h : a.1 ∈ seen
    · rw [if_pos h] at hx
      have hne : (decide (a.1 = x.1)) = false := by
        have h2 := mem_dedupAux seen t x hx
        simp only [decide_eq_false_iff_not]
        intro e
        exact h2.2 (e ▸ h)
      rw [List.find?_cons, hne]
      exact ih seen hx
    · rw [if_neg h] at hx
      rcases List.mem_cons.1 hx with rfl | hx2
      · rw [List.find?_cons]
        simp
      · have h2 := mem_dedupAux (a.1 :: seen) t x hx2
        have hne : (decide (a.1 = x.1)) = false := by
          simp only [decide_eq_false_iff_not]
          intro e
          exact h2.2 (e ▸ List.mem_cons_self _ _)
        rw [List.find?_cons, hne]
        exact ih (a.1 :: seen) hx2

/-- Deduplication preserves the first element found for any unseen key. -/
theorem find?_dedupAux {α : Type} (k : String) (seen : List String) (l : List (String × α))
    (hk : k ∉ seen) :
    (dedupAux seen l).find? (fun y => decide (y.1 = k))
      = l.find? (fun y => decide (y.1 = k)) := by
  induction l generalizing seen with
  | nil => simp [dedupAux]
  | cons a t ih =>
    simp only [dedupAux]
    by_cases h : a.1 ∈ seen
    · rw [if_pos h, ih seen hk, List.find?_cons]
      have hne : (decide (a.1 = k)) = false := by
        simp only [decide_eq_false_iff_not]
        intro e
        exact hk (e ▸ h)
      rw [hne]
    · rw [if_neg h, List.find?_cons, List.find?_cons]
      by_cases he : a.1 = k
      · simp [he]
      · have hne : (decide (a.1 = k)) = false := by simpa using he
        rw [hne]
        exact ih (a.1 :: seen) (by
          simp only [List.mem_cons, not_or]
          exact ⟨fun e => he e.symm, hk⟩)

/-- After deduplication the keys are pairwise distinct and disjoint from the seen set. -/
theorem keys_dedupAux_nodup {α : Type} (seen : List String) (l : List (String × α)) :
    ((dedupAux seen l).map Prod.fst).Nodup
    ∧ ∀ k ∈ (dedupAux seen l).map Prod.fst, k ∉ seen := by
  induction l generalizing seen with
  | nil => simp [dedupAux]
  | cons a t ih =>
    simp only [dedupAux]
    by_cases h : a.1 ∈ seen
    · rw [if_pos h]
      exact ih seen
    · rw [if_neg h]
      obtain ⟨hnd, hnotin⟩ := ih (a.1 :: seen)
      refine ⟨List.nodup_cons.mpr ⟨fun hmem => ?_, hnd⟩, ?_⟩
      · exact (hnotin _ hmem) (List.mem_cons_self _ _)
      · intro k hk
        rw [List.map_cons] at hk
        rcases List.mem_cons.1 hk with rfl | hk2
        · exact h
        · intro hks
          exact (hnotin _ hk2) (List.mem_cons_of_mem _ hks)

/-- Membership in the inner merge: exactly the pairings of a left and a right row sharing a key. -/
theorem mem_innerMergeByKey (os ns : List (String × List Value))
    (x : String × List Value × List Value) :
    x ∈ innerMergeByKey os ns
      ↔ ∃ o ∈ os, ∃ n ∈ ns, n.1 = o.1 ∧ x = (o.1, o.2, n.2) := by
  simp only [innerMergeByKey, List.mem_flatMap, List.mem_map, List.mem_filter,
    decide_eq_true_eq]
  constructor
  · rintro ⟨o, ho, n, ⟨hn, hk⟩, rfl⟩
    exact ⟨o, ho, n, hn, hk, rfl⟩
  · rintro ⟨o, ho, n, hn, hk, rfl⟩
    exact ⟨o, ho, n, ⟨hn, hk⟩, rfl⟩

/-- With pairwise-distinct keys, filtering for the key of a member finds exactly one element. -/
theorem filter_key_length {α : Type} (l : List (String × α))
    (hnd : (l.map Prod.fst).Nodup) (x : String × α) (hx : x ∈ l) :
    (l.filter (fun y => decide (y.1 = x.1))).length = 1 := by
  induction l with
  | nil => cases hx
  | cons a t ih =>
    rw [List.map_cons, List.nodup_cons] at hnd
    rcases List.mem_cons.1 hx with rfl | hxt
    · rw [List.filter_cons, if_pos (by simp)]
      have ht : t.filter (fun y => decide (y.1 = x.1)) = [] := by
        rw [List.filter_eq_nil_iff]
        intro b hb
        simp only [decide_eq_true_eq]
        intro e
        exact hnd.1 (e ▸ List.mem_map_of_mem Prod.fst hb)
      simp [ht]
    · rw [List.filter_cons, if_neg ?_]
      · exact ih hnd.2 hxt
      · simp only [decide_eq_true_eq]
        intro e
        exact hnd.1 (e ▸ List.mem_map_of_mem Prod.fst hxt)



/-- The keys of the projected rows are exactly the synthetic `rowKey`s of the original rows, whether the `UniqueKey` column was appended or overwritten. -/
theorem projRows_keys (t : Table) (ks sel : List String) (hwf : t.WF) :
    (projRows (setUniqueKey t ks) sel).map Prod.fst
      = t.rows.map (fun r => rowKey t.cols ks r) := by
  unfold projRows setUniqueKey
  by_cases h : "UniqueKey" ∈ t.cols
  · rw [if_pos h]
    simp only [List.map_map]
    apply List.map_congr_left
    intro r hr
    simp only [Function.comp_apply]
    unfold colVal
    rw [getD_set_self]
    · rfl
    · rw [hwf r hr]
      exact List.indexOf_lt_length.mpr h
  · rw [if_neg h]
    simp only [List.map_map]
    apply List.map_congr_left
    intro r hr
    simp only [Function.comp_apply]
    unfold colVal
    rw [indexOf_append_self _ h, ← hwf r hr, getD_append_length]
    rfl

/-- A successful call returns the deduplicated inner merge of the two keyed projections. -/
theorem extract_ok_out (old_file new_file : Table) (ok nk oc nc : List String)
    (out : List (String × List Value × List Value))
    (h : (extract_and_merge_columns old_file new_file ok nk oc nc).2.2 = .ok out) :
    out = dedupByKey (innerMergeByKey
      (projRows (setUniqueKey old_file ok) oc)
      (projRows (setUniqueKey new_file nk) nc)) := by
  simp only [extract_and_merge_columns] at h
  split at h
  · split at h
    · split at h
      · split at h
        · simp only at h
          exact (Except.ok.injEq _ _ ▸ h).symm
        · simp at h
      · simp at h
    · simp at h
  · simp at h



/-- A successful call implies every referenced column was present at its check. -/
theorem extract_ok_conditions (old_file new_file : Table) (ok nk oc nc : List String)
    (out : List (String × List Value × List Value))
    (h : (extract_and_merge_columns old_file new_file ok nk oc nc).2.2 = .ok out) :
    (ok.filter (fun c => !decide (c ∈ old_file.cols))).isEmpty = true
    ∧ (nk.filter (fun c => !decide (c ∈ new_file.cols))).isEmpty = true
    ∧ (oc.filter (fun c => !decide (c ∈ (setUniqueKey old_file ok).cols))).isEmpty = true
    ∧ (nc.filter (fun c => !decide (c ∈ (setUniqueKey new_file nk).cols))).isEmpty = true := by
  simp only [extract_and_merge_columns] at h
  split at h
  · split at h
    · split at h
      · split at h
        · rename_i h1 h2 h3 h4
          exact ⟨h1, h2, h3, h4⟩
        · simp at h
      · simp at h
    · simp at h
  · simp at h

/-- A successful call returns both tables with their `UniqueKey` column assigned. -/
theorem extract_ok_tables (old_file new_file : Table) (ok nk oc nc : List String)
    (out : List (String × List Value × List Value))
    (h : (extract_and_merge_columns old_file new_file ok nk oc nc).2.2 = .ok out) :
    (extract_and_merge_columns old_file new_file ok nk oc nc).1
        = setUniqueKey old_file ok
    ∧ (extract_and_merge_columns old_file new_file ok nk oc nc).2.1
        = setUniqueKey new_file nk := by
  obtain ⟨h1, h2, h3, h4⟩ := extract_ok_conditions old_file new_file ok nk oc nc out h
  simp [extract_and_merge_columns, h1, h2, h3, h4]

/-- C10 (amended): the keyed merge mutates its inputs: after every
SUCCESSFUL call, each caller-supplied table has gained a trailing
`UniqueKey` column that was not present before the call.  (A failing
call mutates only as far as execution got: one that raises on the old
key columns leaves both inputs unchanged.) -/
theorem extract_and_merge_mutates (old_file new_file : Table)
    (old_keys new_keys old_cols new_cols : List String)
    (h1 : "UniqueKey" ∉ old_file.cols) (h2 : "UniqueKey" ∉ new_file.cols)
    (out : List (String × List Value × List Value))
    (hok : (extract_and_merge_columns old_file new_file
        old_keys new_keys old_cols new_cols).2.2 = .ok out) :
    ((extract_and_merge_columns old_file new_file
        old_keys new_keys old_cols new_cols).1).cols
      = old_file.cols ++ ["UniqueKey"]
    ∧ ((extract_and_merge_columns old_file new_file
        old_keys new_keys old_cols new_cols).2.1).cols
      = new_file.cols ++ ["UniqueKey"] := by
  obtain ⟨e1, e2⟩ := extract_ok_tables old_file new_file old_keys new_keys
    old_cols new_cols out hok
  rw [e1, e2]
  unfold setUniqueKey
  rw [if_neg h1, if_neg h2]
  exact ⟨rfl, rfl⟩

/-- C6: the keyed merge builds, for each row, a synthetic key made of the
string forms of the key columns joined by `_`; under the inner join the
output contains only keys present in both tables; and the joined rows
are deduplicated by synthetic key keeping the first occurrence, so two
rows of the old table sharing a synthetic key yield exactly one output
row per key. -/
theorem keyed_merge_spec (old_file new_file : Table)
    (old_keys new_keys old_cols new_cols : List String)
    (hwfo : old_file.WF) (hwfn : new_file.WF)
    (out : List (String × List Value × List Value))
    (hok : (extract_and_merge_columns old_file new_file
        old_keys new_keys old_cols new_cols).2.2 = .ok out) :
    (∀ x ∈ out,
      (∃ r ∈ old_file.rows, x.1 = String.intercalate ("_")
          (old_keys.map (fun c => strOfValue (colVal old_file.cols r c))))
      ∧ (∃ r ∈ new_file.rows, x.1 = String.intercalate ("_")
          (new_keys.map (fun c => strOfValue (colVal new_file.cols r c)))))
    ∧ (out.map Prod.fst).Nodup
    ∧ (∀ x ∈ out,
        (innerMergeByKey (projRows (setUniqueKey old_file old_keys) old_cols)
          (projRows (setUniqueKey new_file new_keys) new_cols)).find?
            (fun y => decide (y.1 = x.1)) = some x)
    ∧ (∀ k, (∃ r ∈ old_file.rows, rowKey old_file.cols old_keys r = k) →
        (∃ r ∈ new_file.rows, rowKey new_file.cols new_keys r = k) →
        (out.filter (fun y => decide (y.1 = k))).length = 1) := by
  have hout := extract_ok_out old_file new_file old_keys new_keys old_cols new_cols out hok
  have hko := projRows_keys old_file old_keys old_cols hwfo
  have hkn := projRows_keys new_file new_keys new_cols hwfn
  subst hout
  refine ⟨?_, ?_, ?_, ?_⟩
  · intro x hx
    have hxM := (mem_dedupAux [] _ x hx).1
    rcases (mem_innerMergeByKey _ _ x).1 hxM with ⟨o, ho, n, hn, hkey, rfl⟩
    constructor
    · have hmem : o.1 ∈ (projRows (setUniqueKey old_file old_keys) old_cols).map Prod.fst :=
        List.mem_map_of_mem Prod.fst ho
      rw [hko] at hmem
      rcases List.mem_map.1 hmem with ⟨r, hr, hrk⟩
      exact ⟨r, hr, hrk.symm⟩
    · have hmem : n.1 ∈ (projRows (setUniqueKey new_file new_keys) new_cols).map Prod.fst :=
        List.mem_map_of_mem Prod.fst hn
      rw [hkn] at hmem
      rcases List.mem_map.1 hmem with ⟨r, hr, hrk⟩
      exact ⟨r, hr, (hkey ▸ hrk).symm⟩
  · exact (keys_dedupAux_nodup [] _).1
  · intro x hx
    exact find?_mem_dedupAux [] _ x hx
  · rintro k ⟨ro, hro, hkro⟩ ⟨rn, hrn, hkrn⟩
    have hkO : k ∈ (projRows (setUniqueKey old_file old_keys) old_cols).map Prod.fst := by
      rw [hko]
      exact List.mem_map.2 ⟨ro, hro, hkro⟩
    have hkN : k ∈ (projRows (setUniqueKey new_file new_keys) new_cols).map Prod.fst := by
      rw [hkn]
      exact List.mem_map.2 ⟨rn, hrn, hkrn⟩
    rcases List.mem_map.1 hkO with ⟨o, ho, ho1⟩
    rcases List.mem_map.1 hkN with ⟨n, hn, hn1⟩
    have hzM : (o.1, o.2, n.2) ∈ innerMergeByKey
        (projRows (setUniqueKey old_file old_keys) old_cols)
        (projRows (setUniqueKey new_file new_keys) new_cols) :=
      (mem_innerMergeByKey _ _ _).2 ⟨o, ho, n, hn, by rw [hn1, ho1], rfl⟩
    have hsome : ((innerMergeByKey
        (projRows (setUniqueKey old_file old_keys) old_cols)
        (projRows (setUniqueKey new_file new_keys) new_cols)).find?
          (fun y => decide (y.1 = k))).isSome := by
      rw [List.find?_isSome]
      exact ⟨_, hzM, by simp [ho1]⟩
    rcases Option.isSome_iff_exists.1 hsome with ⟨x0, hfind⟩
    have hdfind := find?_dedupAux k [] (innerMergeByKey
        (projRows (setUniqueKey old_file old_keys) old_cols)
        (projRows (setUniqueKey new_file new_keys) new_cols)) (by simp)
    rw [hfind] at hdfind
    have hx0 : x0 ∈ dedupByKey (innerMergeByKey
        (projRows (setUniqueKey old_file old_keys) old_cols)
        (projRows (setUniqueKey new_file new_keys) new_cols)) :=
      List.mem_of_find?_eq_some hdfind
    have hx01 : x0.1 = k := by
      have := List.find?_some hdfind
      simpa using this
    rw [← hx01]
    exact filter_key_length _ (keys_dedupAux_nodup [] _).1 x0 hx0

/-- An empty missing-columns filter means every referenced column is present. -/
theorem filter_isEmpty_all (l cols : List String)
    (h : (l.filter (fun c => !decide (c ∈ cols))).isEmpty = true) :
    ∀ c ∈ l, c ∈ cols := by
  intro c hc
  rw [List.isEmpty_iff] at h
  by_contra hnc
  have hmem : c ∈ l.filter (fun c => !decide (c ∈ cols)) :=
    List.mem_filter.2 ⟨hc, by simpa using hnc⟩
  rw [h] at hmem
  cases hmem

/-- C9 (amended): whenever a referenced key or select column is absent
from its table, `extract_and_merge_columns` fails with the `pandas`
`KeyError`, which carries the missing column names (and nothing naming
the table), and no merged output is produced. -/
theorem missing_column_error (old_file new_file : Table)
    (old_keys new_keys old_cols new_cols : List String)
    (h : (∃ c ∈ old_keys, c ∉ old_file.cols) ∨ (∃ c ∈ new_keys, c ∉ new_file.cols)
      ∨ (∃ c ∈ old_cols, c ∉ (setUniqueKey old_file old_keys).cols)
      ∨ (∃ c ∈ new_cols, c ∉ (setUniqueKey new_file new_keys).cols)) :
    ∃ missing, (extract_and_merge_columns old_file new_file
        old_keys new_keys old_cols new_cols).2.2 = .error (.colsNotFound missing)
      ∧ missing ≠ []
      ∧ ∀ m ∈ missing,
          (m ∈ old_keys ∧ m ∉ old_file.cols) ∨ (m ∈ new_keys ∧ m ∉ new_file.cols)
          ∨ (m ∈ old_cols ∧ m ∉ (setUniqueKey old_file old_keys).cols)
          ∨ (m ∈ new_cols ∧ m ∉ (setUniqueKey new_file new_keys).cols) := by
  simp only [extract_and_merge_columns]
  by_cases h1 : (old_keys.filter (fun c => !decide (c ∈ old_file.cols))).isEmpty
  case neg =>
    rw [if_neg h1]
    refine ⟨_, rfl, ?_, ?_⟩
    · intro he
      rw [he] at h1
      exact h1 rfl
    · intro m hm
      have hm2 := List.mem_filter.1 hm
      exact Or.inl ⟨hm2.1, by simpa using hm2.2⟩
  case pos =>
    rw [if_pos h1]
    by_cases h2 : (new_keys.filter (fun c => !decide (c ∈ new_file.cols))).isEmpty
    case neg =>
      rw [if_neg h2]
      refine ⟨_, rfl, ?_, ?_⟩
      · intro he
        rw [he] at h2
        exact h2 rfl
      · intro m hm
        have hm2 := List.mem_filter.1 hm
        exact Or.inr (Or.inl ⟨hm2.1, by simpa using hm2.2⟩)
    case pos =>
      rw [if_pos h2]
      by_cases h3 : (old_cols.filter
          (fun c => !decide (c ∈ (setUniqueKey old_file old_keys).cols))).isEmpty
      case neg =>
        rw [if_neg h3]
        refine ⟨_, rfl, ?_, ?_⟩
        · intro he
          rw [he] at h3
          exact h3 rfl
        · intro m hm
          have hm2 := List.mem_filter.1 hm
          exact Or.inr (Or.inr (Or.inl ⟨hm2.1, by simpa using hm2.2⟩))
      case pos =>
        rw [if_pos h3]
        by_cases h4 : (new_cols.filter
            (fun c => !decide (c ∈ (setUniqueKey new_file new_keys).cols))).isEmpty
        case neg =>
          rw [if_neg h4]
          refine ⟨_, rfl, ?_, ?_⟩
          · intro he
            rw [he] at h4
            exact h4 rfl
          · intro m hm
            have hm2 := List.mem_filter.1 hm
            exact Or.inr (Or.inr (Or.inr ⟨hm2.1, by simpa using hm2.2⟩))
        case pos =>
          exfalso
          rcases h with ⟨c, hc, hnc⟩ | ⟨c, hc, hnc⟩ | ⟨c, hc, hnc⟩ | ⟨c, hc, hnc⟩
          · exact hnc (filter_isEmpty_all _ _ h1 c hc)
          · exact hnc (filter_isEmpty_all _ _ h2 c hc)
          · exact hnc (filter_isEmpty_all _ _ h3 c hc)
          · exact hnc (filter_isEmpty_all _ _ h4 c hc)

/-- C8 (amended): reconciliation performs no schema validation: whenever
the two tables share at least one column name — equal column sets or
not — the merge joins on the shared columns and an output table is
produced; no `SchemaMismatch` error exists in the code. -/
theorem no_schema_validation (A B : Table) (h : commonCols A B ≠ []) :
    (reconcileGeneral A B).isSome = true := by
  unfold reconcileGeneral
  rw [if_neg (by simpa [List.isEmpty_iff] using h)]
  rfl

/-- Witness for the amended C8 at concrete tables with columns `[x, y]` and `[x, z]`. -/
theorem no_schema_validation_witness :
    commonCols { cols := ["x","y"], rows := [[Value.VNum 1, Value.VNum 2]] }
      { cols := ["x","z"], rows := [[Value.VNum 4, Value.VNum 3]] } ≠ []
    ∧ (reconcileGeneral { cols := ["x","y"], rows := [[Value.VNum 1, Value.VNum 2]] }
        { cols := ["x","z"], rows := [[Value.VNum 4, Value.VNum 3]] }).isSome = true :=
  ⟨by decide, no_schema_validation _ _ (by decide)⟩

/-- Counterexample to C8 as stated: the two tables have different columns, yet reconciliation produces an output table (joined on the shared column `x`) instead of failing with a `SchemaMismatch` error. -/
theorem schema_mismatch_counterexample :
    ({ cols := ["x","y"], rows := [[Value.VNum 1, Value.VNum 2]] } : Table).cols
      ≠ ({ cols := ["x","z"], rows := [[Value.VNum 4, Value.VNum 3]] } : Table).cols
    ∧ reconcileGeneral { cols := ["x","y"], rows := [[Value.VNum 1, Value.VNum 2]] }
        { cols := ["x","z"], rows := [[Value.VNum 4, Value.VNum 3]] }
      = some { cols := ["x", "y", "z", "Merge_Output"],
               rows := [[Value.VNum 1, Value.VNum 2, Value.VNull, Value.VStr ("Source Only")],
                        [Value.VNum 4, Value.VNull, Value.VNum 3, Value.VStr ("Target Only")]] } := by
  constructor
  · decide
  · rfl

/-- Counterexample to C9 as stated: a call missing column `k` in the OLD table and a call missing column `k` in the NEW table produce identical error values, so the error cannot name the table the column is missing from. -/
theorem missing_column_error_no_table :
    (extract_and_merge_columns { cols := ["a"], rows := [] } { cols := ["k"], rows := [] }
        ["k"] ["k"] [] []).2.2 = .error (.colsNotFound ["k"])
    ∧ (extract_and_merge_columns { cols := ["k"], rows := [] } { cols := ["a"], rows := [] }
        ["k"] ["k"] [] []).2.2 = .error (.colsNotFound ["k"])
    ∧ (extract_and_merge_columns { cols := ["a"], rows := [] } { cols := ["k"], rows := [] }
        ["k"] ["k"] [] []).2.2
      = (extract_and_merge_columns { cols := ["k"], rows := [] } { cols := ["a"], rows := [] }
        ["k"] ["k"] [] []).2.2 :=
  ⟨rfl, rfl, rfl⟩

/-- Witness for the amended C9: key column `k` is absent from the old table, and the call fails with an error listing exactly the missing referenced columns. -/
theorem missing_column_error_witness :
    ((∃ c ∈ ["k"], c ∉ ({ cols := ["a"], rows := [] } : Table).cols)
      ∨ (∃ c ∈ ["k"], c ∉ ({ cols := ["k"], rows := [] } : Table).cols)
      ∨ (∃ c ∈ ([] : List String),
          c ∉ (setUniqueKey { cols := ["a"], rows := [] } ["k"]).cols)
      ∨ (∃ c ∈ ([] : List String),
          c ∉ (setUniqueKey { cols := ["k"], rows := [] } ["k"]).cols))
    ∧ ∃ missing, (extract_and_merge_columns { cols := ["a"], rows := [] }
          { cols := ["k"], rows := [] } ["k"] ["k"] [] []).2.2
        = .error (.colsNotFound missing)
      ∧ missing ≠ []
      ∧ ∀ m ∈ missing,
          (m ∈ ["k"] ∧ m ∉ ({ cols := ["a"], rows := [] } : Table).cols)
          ∨ (m ∈ ["k"] ∧ m ∉ ({ cols := ["k"], rows := [] } : Table).cols)
          ∨ (m ∈ ([] : List String)
              ∧ m ∉ (setUniqueKey { cols := ["a"], rows := [] } ["k"]).cols)
          ∨ (m ∈ ([] : List String)
              ∧ m ∉ (setUniqueKey { cols := ["k"], rows := [] } ["k"]).cols) :=
  ⟨by decide, missing_column_error _ _ _ _ _ _ (by decide)⟩

/-- Witness for C10 at two concrete one-column tables. -/
theorem extract_and_merge_mutates_witness :
    "UniqueKey" ∉ ({ cols := ["id"], rows := [[Value.VNum 1]] } : Table).cols
    ∧ "UniqueKey" ∉ ({ cols := ["id"], rows := [[Value.VNum 1]] } : Table).cols
    ∧ (extract_and_merge_columns { cols := ["id"], rows := [[Value.VNum 1]] }
        { cols := ["id"], rows := [[Value.VNum 1]] } ["id"] ["id"] [] []).2.2
      = .ok [(("1" : String), [], [])]
    ∧ (((extract_and_merge_columns { cols := ["id"], rows := [[Value.VNum 1]] }
          { cols := ["id"], rows := [[Value.VNum 1]] } ["id"] ["id"] [] []).1).cols
        = ({ cols := ["id"], rows := [[Value.VNum 1]] } : Table).cols ++ ["UniqueKey"]
      ∧ (((extract_and_merge_columns { cols := ["id"], rows := [[Value.VNum 1]] }
          { cols := ["id"], rows := [[Value.VNum 1]] } ["id"] ["id"] [] []).2.1).cols
        = ({ cols := ["id"], rows := [[Value.VNum 1]] } : Table).cols ++ ["UniqueKey"])) :=
  ⟨by decide, by decide, rfl,
    extract_and_merge_mutates _ _ _ _ _ _ (by decide) (by decide) _ rfl⟩

/-- Counterexample to C10 as stated: on a call whose key column `k` is
missing from the old table, the `pandas` selection on line 14 raises
before any assignment, so the call errors and BOTH caller-supplied
tables come back with their columns unchanged — neither contains a
`UniqueKey` column, refuting the universally quantified `after every
call` claim. -/
theorem extract_and_merge_mutates_counterexample :
    (extract_and_merge_columns { cols := ["a"], rows := [] } { cols := ["b"], rows := [] }
        ["k"] ["k"] [] []).2.2 = .error (.colsNotFound ["k"])
    ∧ ((extract_and_merge_columns { cols := ["a"], rows := [] } { cols := ["b"], rows := [] }
        ["k"] ["k"] [] []).1).cols = ["a"]
    ∧ ((extract_and_merge_columns { cols := ["a"], rows := [] } { cols := ["b"], rows := [] }
        ["k"] ["k"] [] []).2.1).cols = ["b"]
    ∧ "UniqueKey" ∉ ((extract_and_merge_columns { cols := ["a"], rows := [] }
        { cols := ["b"], rows := [] } ["k"] ["k"] [] []).1).cols
    ∧ "UniqueKey" ∉ ((extract_and_merge_columns { cols := ["a"], rows := [] }
        { cols := ["b"], rows := [] } ["k"] ["k"] [] []).2.1).cols :=
  ⟨rfl, rfl, rfl, by decide, by decide⟩

/-- Witness for C6: old table `{id, n}` with two rows of key 1, new table `{id, m}`; the successful merge returns the single row keyed 1 pairing the first matches, keys 2 and 3 being dropped by the inner join. -/
theorem keyed_merge_spec_witness :
    ({ cols := ["id","n"], rows := [[Value.VNum 1, Value.VStr ("a")],
        [Value.VNum 1, Value.VStr ("b")], [Value.VNum 2, Value.VStr ("c")]] } : Table).WF
    ∧ ({ cols := ["id","m"], rows := [[Value.VNum 1, Value.VStr ("x")],
        [Value.VNum 3, Value.VStr ("y")]] } : Table).WF
    ∧ (extract_and_merge_columns
        { cols := ["id","n"], rows := [[Value.VNum 1, Value.VStr ("a")],
          [Value.VNum 1, Value.VStr ("b")], [Value.VNum 2, Value.VStr ("c")]] }
        { cols := ["id","m"], rows := [[Value.VNum 1, Value.VStr ("x")],
          [Value.VNum 3, Value.VStr ("y")]] }
        ["id"] ["id"] ["n"] ["m"]).2.2
      = .ok [(("1" : String), [Value.VStr ("a")], [Value.VStr ("x")])]
    ∧ ((∀ x ∈ [(("1" : String), [Value.VStr ("a")], [Value.VStr ("x")])],
        (∃ r ∈ ({ cols := ["id","n"], rows := [[Value.VNum 1, Value.VStr ("a")],
            [Value.VNum 1, Value.VStr ("b")], [Value.VNum 2, Value.VStr ("c")]] } : Table).rows,
          x.1 = String.intercalate ("_")
            (["id"].map (fun c => strOfValue (colVal ["id","n"] r c))))
        ∧ (∃ r ∈ ({ cols := ["id","m"], rows := [[Value.VNum 1, Value.VStr ("x")],
            [Value.VNum 3, Value.VStr ("y")]] } : Table).rows,
          x.1 = String.intercalate ("_")
            (["id"].map (fun c => strOfValue (colVal ["id","m"] r c)))))
      ∧ ([(("1" : String), [Value.VStr ("a")], [Value.VStr ("x")])].map Prod.fst).Nodup
      ∧ (∀ x ∈ [(("1" : String), [Value.VStr ("a")], [Value.VStr ("x")])],
          (innerMergeByKey
            (projRows (setUniqueKey
              { cols := ["id","n"],
                rows := [[Value.VNum 1, Value.VStr ("a")], [Value.VNum 1, Value.VStr ("b")],
                  [Value.VNum 2, Value.VStr ("c")]] } ["id"]) ["n"])
            (projRows (setUniqueKey
              { cols := ["id","m"],
                rows := [[Value.VNum 1, Value.VStr ("x")],
                  [Value.VNum 3, Value.VStr ("y")]] } ["id"]) ["m"])).find?
              (fun y => decide (y.1 = x.1)) = some x)
      ∧ (∀ k, (∃ r ∈ ({ cols := ["id","n"], rows := [[Value.VNum 1, Value.VStr ("a")],
            [Value.VNum 1, Value.VStr ("b")], [Value.VNum 2, Value.VStr ("c")]] } : Table).rows,
            rowKey ["id","n"] ["id"] r = k) →
          (∃ r ∈ ({ cols := ["id","m"], rows := [[Value.VNum 1, Value.VStr ("x")],
            [Value.VNum 3, Value.VStr ("y")]] } : Table).rows,
            rowKey ["id","m"] ["id"] r = k) →
          ([(("1" : String), [Value.VStr ("a")], [Value.VStr ("x")])].filter
            (fun y => decide (y.1 = k))).length = 1)) :=
  ⟨by unfold Table.WF; decide, by unfold Table.WF; decide, rfl,
    keyed_merge_spec _ _ _ _ _ _ (by unfold Table.WF; decide)
      (by unfold Table.WF; decide) _ rfl⟩


/-- C7 (code behaviour at the failing input): a `Differences` row with
data cells `x`, `y` and tag `Source Only` is filled yellow, its true
last cell holds the tag and its two data cells differ — the pairwise
comparison of the claim would paint both red (`redAt` is true at 0 and
1) — yet no cell is painted red, because the second loop of
`highlight_col` reads its merge status from the last DATA column
(here `y`) instead of the tag column. -/
theorem highlight_skips_tagged_rows :
    highlight_col 3 [[Value.VStr ("x"), Value.VStr ("y"), Value.VStr ("Source Only")]]
      = [[Fill.yellow, Fill.yellow, Fill.yellow]]
    ∧ [Value.VStr ("x"), Value.VStr ("y"), Value.VStr ("Source Only")].getD (3 - 1) Value.VNull
      = Value.VStr ("Source Only")
    ∧ [Value.VStr ("x"), Value.VStr ("y"), Value.VStr ("Source Only")].getD ((3 - 1) - 1) Value.VNull
      = Value.VStr ("y")
    ∧ redAt [Value.VStr ("x"), Value.VStr ("y"), Value.VStr ("Source Only")] (3 - 1) 0 = true
    ∧ redAt [Value.VStr ("x"), Value.VStr ("y"), Value.VStr ("Source Only")] (3 - 1) 1 = true
    ∧ Fill.red ∉ [Fill.yellow, Fill.yellow, Fill.yellow] :=
  ⟨rfl, rfl, rfl, rfl, rfl, by decide⟩

/-- Control case for the highlighting pass: when the last DATA cell happens to hold the tag string, the comparison loop does run and paints the differing pair red. -/
theorem highlight_marks_when_guard_passes :
    highlight_col 3 [[Value.VStr ("x"), Value.VStr ("Source Only"), Value.VStr ("Source Only")]]
      = [[Fill.red, Fill.red, Fill.yellow]] := rfl

end ExcelCompare
